import Mathlib

/-!
Shallow embedding of `src/statistics_and_trends.py`.

The script is a pandas/scipy pipeline over a tabular dataset:
`preprocessing` (lines 94-118) strips column names, coerces the four
designated columns to numeric with `pd.to_numeric(errors='coerce')`, and
median-fills missing values with `df.fillna(df.median(numeric_only=True))`;
`statistical_analysis` (lines 76-91) returns mean, sample standard
deviation, skewness and excess kurtosis of one column; `writing`
(lines 121-149) classifies the skewness and kurtosis values.

Floating-point cells are modelled as rationals; real-valued library
outputs (square roots) live in `ℝ`; NaN results and raised exceptions are
modelled with `Option`.
-/

namespace StatTrends

/-- A cell of a tabular dataset: a numeric value, a textual value, or a
missing value (NaN). -/
inductive Value where
  | num (q : ℚ)
  | str (s : String)
  | na
deriving DecidableEq, Repr

/-- A named column: model of one `pandas` Series inside a DataFrame. -/
structure Col where
  name : String
  cells : List Value
deriving DecidableEq, Repr

/-- A dataset is an ordered collection of named columns. -/
abbrev DataFrame := List Col

/-- Whitespace test used by Python's `str.strip`. -/
def isWS (c : Char) : Bool := c.isWhitespace

/-- Strip leading and trailing whitespace from a character list. -/
def trimChars (cs : List Char) : List Char :=
  List.rdropWhile isWS (cs.dropWhile isWS)

/-- Model of Python's `str.strip()` (used by `df.columns.str.strip()`,
line 108). -/
def pyStrip (s : String) : String := String.mk (trimChars s.data)

/-- Decimal digit of a character, if any. -/
def charDigit? (c : Char) : Option ℕ :=
  if '0' ≤ c ∧ c ≤ '9' then some (c.toNat - '0'.toNat) else none

/-- Value of a big-endian digit list. -/
def digitsVal (ds : List ℕ) : ℕ := ds.foldl (fun a d => 10 * a + d) 0

/-- Parse an unsigned decimal numeral `digits` or `digits.digits`
(either side of the point possibly empty, but not both). -/
def parseUnsigned? (cs : List Char) : Option ℚ :=
  match cs.splitOn '.' with
  | [ds] =>
      if ds.isEmpty then none
      else (ds.mapM charDigit?).map (fun l => (digitsVal l : ℚ))
  | [ip, fp] =>
      if ip.isEmpty ∧ fp.isEmpty then none
      else
        match ip.mapM charDigit?, fp.mapM charDigit? with
        | some il, some fl =>
            some ((digitsVal il : ℚ) + (digitsVal fl : ℚ) / (10 : ℚ) ^ fl.length)
        | _, _ => none
  | _ => none

/-- Model of numeric-string parsing as done by `pd.to_numeric`: optional
sign, then a decimal numeral; surrounding whitespace is ignored;
anything else fails to parse. -/
def parseNum (s : String) : Option ℚ :=
  match trimChars s.data with
  | '+' :: cs => parseUnsigned? cs
  | '-' :: cs => (parseUnsigned? cs).map (fun q => -q)
  | cs => parseUnsigned? cs

/-- Model of `pd.to_numeric(errors='coerce')` on one cell (line 111): a
value that fails numeric parsing becomes missing instead of raising. -/
def toNumeric : Value → Value
  | .num q => .num q
  | .na => .na
  | .str s =>
      match parseNum s with
      | some q => .num q
      | none => .na

/-- The numeric content of a cell, if any. -/
def cellNum? : Value → Option ℚ
  | .num q => some q
  | _ => none

/-- Is the cell textual? -/
def isStrCell : Value → Bool
  | .str _ => true
  | _ => false

/-- Is the cell missing? -/
def isNaCell : Value → Bool
  | .na => true
  | _ => false

/-- The present (non-missing, non-textual) numeric values of a column. -/
def presentVals (cs : List Value) : List ℚ := cs.filterMap cellNum?

/-- Numeric dtype test: a column participates in
`df.median(numeric_only=True)` exactly when it holds no textual cell. -/
def isNumericCol (cs : List Value) : Bool := cs.all (fun v => !isStrCell v)

/-- Model of `pandas` median over the present values of a column: sort,
take the middle element, or the mean of the two middle elements; the
median of an empty collection is NaN (`none`). -/
def median? (xs : List ℚ) : Option ℚ :=
  let s := List.insertionSort (· ≤ ·) xs
  let n := xs.length
  if n = 0 then none
  else if n % 2 = 1 then some (s.getD (n / 2) 0)
  else some ((s.getD (n / 2 - 1) 0 + s.getD (n / 2) 0) / 2)

/-- Replace a missing cell by the fill value `m`. -/
def fillWith (m : ℚ) : Value → Value
  | .na => .num m
  | v => v

/-- The four designated numeric columns (line 110). -/
def designatedCols : List String :=
  ["summer_gold", "summer_total", "total_gold", "total_total"]

/-- Column-name stripping (line 108) on one column. -/
def stripCol (c : Col) : Col := { c with name := pyStrip c.name }

/-- Numeric coercion (line 111) on one column: only designated columns
are coerced. -/
def coerceCol (c : Col) : Col :=
  if c.name ∈ designatedCols then { c with cells := c.cells.map toNumeric }
  else c

/-- Median imputation (line 113) on one column:
`df.fillna(df.median(numeric_only=True))` fills only columns of numeric
dtype, and an all-missing column has NaN median, which `fillna`
skips, leaving the column unchanged. -/
def fillCol (c : Col) : Col :=
  if isNumericCol c.cells then
    match median? (presentVals c.cells) with
    | some m => { c with cells := c.cells.map (fillWith m) }
    | none => c
  else c

/-- The whole per-column preprocessing pipeline. -/
def prepCol (c : Col) : Col := fillCol (coerceCol (stripCol c))

/-- Does the dataset have a column of the given name? -/
def hasColumn (df : DataFrame) (n : String) : Bool :=
  df.any (fun c => c.name = n)

/-- Model of `preprocessing` (lines 94-118). Selecting
`df[numeric_columns]` raises `KeyError` when a designated column is
absent after name stripping; the raised error is modelled as `none`. -/
def preprocessing (df : DataFrame) : Option DataFrame :=
  let df1 := df.map stripCol
  if designatedCols.all (fun n => hasColumn df1 n) then
    some (df1.map (fun c => fillCol (coerceCol c)))
  else none

/-- Arithmetic mean, as `pandas` computes it over the present values. -/
def listMean (xs : List ℚ) : ℚ := xs.sum / xs.length

/-- k-th population central moment, as used by `scipy.stats`. -/
def centralMoment (xs : List ℚ) (k : ℕ) : ℚ :=
  (xs.map (fun x => (x - listMean xs) ^ k)).sum / xs.length

/-- Model of `pandas` `Series.var` with its default `ddof = 1`. -/
def sampleVar (xs : List ℚ) : ℚ :=
  (xs.map (fun x => (x - listMean xs) ^ 2)).sum / ((xs.length : ℚ) - 1)

/-- Model of `pandas` `Series.std` (line 88): square root of the
`ddof = 1` variance. -/
noncomputable def stddev (xs : List ℚ) : ℝ := Real.sqrt (sampleVar xs)

/-- Model of `scipy.stats.skew` with its defaults (line 89):
`m3 / m2^(3/2)`; on zero variance the library returns NaN (`none`). -/
noncomputable def skew (xs : List ℚ) : Option ℝ :=
  if centralMoment xs 2 = 0 then none
  else some ((centralMoment xs 3 : ℝ) / Real.sqrt (centralMoment xs 2) ^ 3)

/-- Model of `scipy.stats.kurtosis` with its defaults (line 90):
`m4 / m2^2 - 3` (Fisher's excess kurtosis); on zero variance the library
returns NaN (`none`). -/
def kurtosis (xs : List ℚ) : Option ℚ :=
  if centralMoment xs 2 = 0 then none
  else some (centralMoment xs 4 / centralMoment xs 2 ^ 2 - 3)

/-- The tuple returned by `statistical_analysis`: mean, standard
deviation, skewness, excess kurtosis. -/
abbrev Moments := ℚ × ℝ × Option ℝ × Option ℚ

/-- Column lookup `df[col]`. -/
def getColumn (df : DataFrame) (col : String) : Option Col :=
  df.find? (fun c => c.name = col)

/-- Model of `statistical_analysis` (lines 76-91): a missing column or a
textual column raises (`none`); `pandas` mean/std skip missing values,
while `scipy` skew/kurtosis yield NaN (`none`) when one is present. -/
noncomputable def statistical_analysis (df : DataFrame) (col : String) :
    Option Moments :=
  (getColumn df col).bind fun c =>
    if isNumericCol c.cells then
      some (listMean (presentVals c.cells),
            stddev (presentVals c.cells),
            if c.cells.any isNaCell then none else skew (presentVals c.cells),
            if c.cells.any isNaCell then none
            else kurtosis (presentVals c.cells))
    else none

/-- Skewness classification of `writing` (lines 136-142). -/
def skewness_interpretation (s : ℚ) : String :=
  if s > 2 then "right-skewed"
  else if s < -2 then "left-skewed"
  else "not skewed"

/-- Kurtosis classification of `writing` (lines 137-147). -/
def kurtosis_interpretation (k : ℚ) : String :=
  if k > 0 then "leptokurtic (heavy-tailed)"
  else if k < 0 then "platykurtic (light-tailed)"
  else "mesokurtic"

/-- Apply a row permutation, given as a list of row indices, to every
column of a dataset simultaneously. -/
def permRows (p : List ℕ) (df : DataFrame) : DataFrame :=
  df.map (fun c => { c with cells := p.map (fun i => c.cells.getD i Value.na) })

/-! ### Basic facts about stripping, parsing and cells -/

theorem trimChars_idem (cs : List Char) :
    trimChars (trimChars cs) = trimChars cs := by
  unfold trimChars
  have h1 : List.dropWhile isWS (List.rdropWhile isWS (cs.dropWhile isWS)) =
      List.rdropWhile isWS (cs.dropWhile isWS) := by
    rw [List.dropWhile_eq_self_iff]
    intro hl
    obtain ⟨t, ht⟩ := List.rdropWhile_prefix isWS (cs.dropWhile isWS)
    have hlen : 0 < (cs.dropWhile isWS).length := by
      have hle : (List.rdropWhile isWS (cs.dropWhile isWS)).length ≤
          (cs.dropWhile isWS).length := List.IsPrefix.length_le ⟨t, ht⟩
      omega
    have hget : (List.rdropWhile isWS (cs.dropWhile isWS)).get ⟨0, hl⟩ =
        (cs.dropWhile isWS).get ⟨0, hlen⟩ := by
      simp only [List.get_eq_getElem]
      exact List.IsPrefix.getElem ⟨t, ht⟩ hl
    rw [hget]
    exact List.dropWhile_get_zero_not isWS cs hlen
  rw [h1, List.rdropWhile_idempotent]

theorem pyStrip_idem (s : String) : pyStrip (pyStrip s) = pyStrip s := by
  simp [pyStrip, trimChars_idem]

theorem isStrCell_toNumeric (v : Value) : isStrCell (toNumeric v) = false := by
  cases v with
  | num q => rfl
  | na => rfl
  | str s =>
      simp only [toNumeric]
      cases parseNum s <;> rfl

theorem isNumericCol_map_toNumeric (cs : List Value) :
    isNumericCol (cs.map toNumeric) = true := by
  simp only [isNumericCol, List.all_map, List.all_eq_true]
  intro v _
  simp [Function.comp, isStrCell_toNumeric]

theorem map_toNumeric_of_numeric {cs : List Value}
    (h : isNumericCol cs = true) : cs.map toNumeric = cs := by
  simp only [isNumericCol, List.all_eq_true] at h
  induction cs with
  | nil => rfl
  | cons v t ih =>
      have hv := h v (by simp)
      have ht := ih (fun x hx => h x (by simp [hx]))
      cases v with
      | num q => simp [toNumeric, ht]
      | na => simp [toNumeric, ht]
      | str s => simp [isStrCell] at hv

theorem isStrCell_fillWith (m : ℚ) (v : Value) :
    isStrCell (fillWith m v) = isStrCell v := by
  cases v <;> rfl

theorem isNaCell_fillWith (m : ℚ) (v : Value) :
    isNaCell (fillWith m v) = false := by
  cases v <;> rfl

theorem na_not_mem_map_fillWith (m : ℚ) (cs : List Value) :
    Value.na ∉ cs.map (fillWith m) := by
  intro hmem
  obtain ⟨v, _, hv⟩ := List.mem_map.1 hmem
  cases v <;> simp [fillWith] at hv

theorem map_fillWith_of_not_na {cs : List Value} (m : ℚ)
    (h : Value.na ∉ cs) : cs.map (fillWith m) = cs := by
  induction cs with
  | nil => rfl
  | cons v t ih =>
      have hv : v ≠ Value.na := fun hv => h (by simp [hv])
      have ht := ih (fun hx => h (by simp [hx]))
      cases v with
      | num q => simp [fillWith, ht]
      | na => exact absurd rfl hv
      | str s => simp [fillWith, ht]

theorem isNumericCol_map_fillWith (m : ℚ) (cs : List Value) :
    isNumericCol (cs.map (fillWith m)) = isNumericCol cs := by
  simp only [isNumericCol, List.all_map]
  have h : ((fun v => !isStrCell v) ∘ fillWith m) = fun v => !isStrCell v :=
    funext fun v => by simp [Function.comp, isStrCell_fillWith]
  rw [h]

theorem median?_eq_none_iff (xs : List ℚ) : median? xs = none ↔ xs = [] := by
  cases xs with
  | nil => simp [median?]
  | cons a t =>
      simp only [median?]
      have hne : (a :: t).length ≠ 0 := by simp
      rw [if_neg hne]
      constructor
      · intro h
        exfalso
        by_cases hodd : (a :: t).length % 2 = 1
        · rw [if_pos hodd] at h
          exact Option.noConfusion h
        · rw [if_neg hodd] at h
          exact Option.noConfusion h
      · intro h
        exact absurd h (List.cons_ne_nil a t)

theorem fillWith_toNumeric (m : ℚ) (v : Value) :
    fillWith m (toNumeric v) = Value.num ((cellNum? (toNumeric v)).getD m) := by
  cases v with
  | num q => rfl
  | na => rfl
  | str s =>
      simp only [toNumeric]
      cases parseNum s <;> rfl

/-! ### Facts about the per-column preprocessing pipeline -/

theorem stripCol_name (c : Col) : (stripCol c).name = pyStrip c.name := rfl

theorem coerceCol_name (c : Col) : (coerceCol c).name = c.name := by
  unfold coerceCol
  split_ifs <;> rfl

theorem fillCol_name (c : Col) : (fillCol c).name = c.name := by
  unfold fillCol
  split_ifs with h
  · cases median? (presentVals c.cells) <;> rfl
  · rfl

theorem prepCol_name (c : Col) : (prepCol c).name = pyStrip c.name := by
  unfold prepCol
  rw [fillCol_name, coerceCol_name, stripCol_name]

theorem isNumericCol_fillCol (c : Col) :
    isNumericCol (fillCol c).cells = isNumericCol c.cells := by
  unfold fillCol
  split_ifs with h
  · cases median? (presentVals c.cells) with
    | none => rfl
    | some m => simp [isNumericCol_map_fillWith]
  · rfl

theorem fillCol_idem (c : Col) : fillCol (fillCol c) = fillCol c := by
  by_cases hnum : isNumericCol c.cells = true
  · cases hmed : median? (presentVals c.cells) with
    | none =>
        unfold fillCol
        rw [if_pos hnum, hmed, if_pos hnum, hmed]
    | some m =>
        have h1 : fillCol c = ⟨c.name, c.cells.map (fillWith m)⟩ := by
          unfold fillCol
          rw [if_pos hnum, hmed]

        rw [h1]
        unfold fillCol
        simp only
        rw [if_pos (by rw [isNumericCol_map_fillWith]; exact hnum)]
        cases hmed2 : median? (presentVals (c.cells.map (fillWith m))) with
        | none => rfl
        | some m2 =>
            simp only [Col.mk.injEq, true_and]
            exact map_fillWith_of_not_na m2 (na_not_mem_map_fillWith m c.cells)
  · have h1 : fillCol c = c := by
      unfold fillCol
      rw [if_neg hnum]
    rw [h1, h1]

theorem coerceCol_of_numeric {c : Col} (h : isNumericCol c.cells = true) :
    coerceCol c = c := by
  unfold coerceCol
  split_ifs with hdes
  · simp [map_toNumeric_of_numeric h]
  · rfl

theorem coerceCol_stripCol_designated {c : Col}
    (hdes : pyStrip c.name ∈ designatedCols) :
    coerceCol (stripCol c) = ⟨pyStrip c.name, c.cells.map toNumeric⟩ := by
  unfold coerceCol
  rw [if_pos (by rw [stripCol_name]; exact hdes)]
  rfl

theorem coerceCol_stripCol_nondesignated {c : Col}
    (hdes : pyStrip c.name ∉ designatedCols) :
    coerceCol (stripCol c) = ⟨pyStrip c.name, c.cells⟩ := by
  unfold coerceCol
  rw [if_neg (by rw [stripCol_name]; exact hdes)]
  rfl

theorem stripCol_prepCol (c : Col) : stripCol (prepCol c) = prepCol c := by
  have h : pyStrip (prepCol c).name = (prepCol c).name := by
    rw [prepCol_name, pyStrip_idem, ← prepCol_name]
  show Col.mk (pyStrip (prepCol c).name) (prepCol c).cells = prepCol c
  rw [h]

theorem coerceCol_prepCol (c : Col) : coerceCol (prepCol c) = prepCol c := by
  by_cases hdes : (prepCol c).name ∈ designatedCols
  · apply coerceCol_of_numeric
    rw [prepCol_name] at hdes
    unfold prepCol
    rw [isNumericCol_fillCol, coerceCol_stripCol_designated hdes]
    exact isNumericCol_map_toNumeric _
  · unfold coerceCol
    rw [if_neg hdes]

theorem prepCol_idem (c : Col) : prepCol (prepCol c) = prepCol c := by
  show fillCol (coerceCol (stripCol (prepCol c))) = prepCol c
  rw [stripCol_prepCol, coerceCol_prepCol]
  show fillCol (fillCol (coerceCol (stripCol c))) = prepCol c
  rw [fillCol_idem]
  rfl

theorem prepCol_designated {c : Col} {m : ℚ}
    (hdes : pyStrip c.name ∈ designatedCols)
    (hm : median? (presentVals (c.cells.map toNumeric)) = some m) :
    prepCol c = ⟨pyStrip c.name, (c.cells.map toNumeric).map (fillWith m)⟩ := by
  unfold prepCol
  rw [coerceCol_stripCol_designated hdes]
  unfold fillCol
  simp only
  rw [if_pos (isNumericCol_map_toNumeric c.cells), hm]

theorem prepCol_designated_empty {c : Col}
    (hdes : pyStrip c.name ∈ designatedCols)
    (hm : median? (presentVals (c.cells.map toNumeric)) = none) :
    prepCol c = ⟨pyStrip c.name, c.cells.map toNumeric⟩ := by
  unfold prepCol
  rw [coerceCol_stripCol_designated hdes]
  unfold fillCol
  simp only
  rw [if_pos (isNumericCol_map_toNumeric c.cells), hm]

theorem prepCol_nondesignated_notnum {c : Col}
    (hdes : pyStrip c.name ∉ designatedCols)
    (hnum : isNumericCol c.cells = false) :
    prepCol c = ⟨pyStrip c.name, c.cells⟩ := by
  unfold prepCol
  rw [coerceCol_stripCol_nondesignated hdes]
  unfold fillCol
  simp only [hnum]
  rw [if_neg (by simp)]

theorem prepCol_nondesignated_no_na {c : Col}
    (hdes : pyStrip c.name ∉ designatedCols)
    (hna : Value.na ∉ c.cells) :
    prepCol c = ⟨pyStrip c.name, c.cells⟩ := by
  unfold prepCol
  rw [coerceCol_stripCol_nondesignated hdes]
  unfold fillCol
  simp only
  split_ifs with hnum
  · cases hmed : median? (presentVals c.cells) with
    | none => rfl
    | some m => simp [map_fillWith_of_not_na m hna]
  · rfl

/-! ### Facts about the whole preprocessing step -/

theorem preprocessing_eq_some_iff (df d : DataFrame) :
    preprocessing df = some d ↔
      ((designatedCols.all fun n => hasColumn (df.map stripCol) n) = true ∧
        d = df.map prepCol) := by
  unfold preprocessing
  simp only
  split_ifs with h
  · constructor
    · intro hsome
      refine ⟨h, ?_⟩
      rw [← Option.some.inj hsome, List.map_map]
      rfl
    · rintro ⟨-, hd⟩
      rw [hd, List.map_map]
      rfl
  · simp [h]

theorem hasColumn_stripCol_map_prepCol (df : DataFrame) (n : String) :
    hasColumn ((df.map prepCol).map stripCol) n =
      hasColumn (df.map stripCol) n := by
  simp only [hasColumn, List.any_map]
  congr 1
  funext c
  simp [Function.comp, stripCol_name, prepCol_name, pyStrip_idem]

theorem map_prepCol_idem (df : DataFrame) :
    (df.map prepCol).map prepCol = df.map prepCol := by
  induction df with
  | nil => rfl
  | cons c t ih =>
      simp only [List.map_cons]
      rw [prepCol_idem c]
      exact congrArg _ ih

/-- C5: `preprocessing` is idempotent. A dataset in the image of
`preprocessing` has stripped names (stripping is idempotent), already
numeric designated columns (coercion fixes them), and numeric columns
that are either fully present or fully missing (so the second median
fill changes nothing). -/
theorem preprocessing_idempotent (df d : DataFrame)
    (h : preprocessing df = some d) : preprocessing d = some d := by
  obtain ⟨hg, hd⟩ := (preprocessing_eq_some_iff df d).1 h
  subst hd
  apply (preprocessing_eq_some_iff _ _).2
  constructor
  · rw [List.all_eq_true] at hg ⊢
    intro n hn
    rw [hasColumn_stripCol_map_prepCol]
    exact hg n hn
  · exact (map_prepCol_idem df).symm

theorem eq_na_of_presentVals_nil (cs : List Value)
    (hnum : isNumericCol cs = true) (hp : presentVals cs = []) :
    ∀ v ∈ cs, v = Value.na := by
  induction cs with
  | nil =>
      intro v hv
      exact absurd hv (List.not_mem_nil v)
  | cons a t ih =>
      have hnum' : isNumericCol t = true := by
        simp only [isNumericCol, List.all_cons, Bool.and_eq_true] at hnum
        exact hnum.2
      cases a with
      | num q =>
          exfalso
          simp [presentVals, List.filterMap_cons, cellNum?] at hp
      | na =>
          have hp' : presentVals t = [] := by
            simpa [presentVals, List.filterMap_cons, cellNum?] using hp
          intro v hv
          rcases List.mem_cons.1 hv with hva | hvt
          · exact hva
          · exact ih hnum' hp' v hvt
      | str s =>
          exfalso
          simp [isNumericCol, isStrCell] at hnum

/-- C1 (amended): after successful preprocessing, no column name has
leading or trailing whitespace, and, column by column, every designated
column whose coerced cells hold at least one numeric value is returned
with no missing value, while a designated column with no parseable cell
at all is returned coerced but unfilled, entirely missing. -/
theorem preprocessing_clean (df d : DataFrame)
    (h : preprocessing df = some d) :
    (∀ c ∈ d, pyStrip c.name = c.name) ∧
      (∀ i : ℕ, ∀ c : Col, df[i]? = some c →
        pyStrip c.name ∈ designatedCols →
        ((presentVals (c.cells.map toNumeric) ≠ [] →
            ∃ c', d[i]? = some c' ∧ c'.name = pyStrip c.name ∧
              Value.na ∉ c'.cells) ∧
          (presentVals (c.cells.map toNumeric) = [] →
            d[i]? = some ⟨pyStrip c.name, c.cells.map toNumeric⟩ ∧
              ∀ v ∈ c.cells.map toNumeric, v = Value.na))) := by
  obtain ⟨-, hd⟩ := (preprocessing_eq_some_iff df d).1 h
  subst hd
  constructor
  · intro c' hc'
    obtain ⟨c, -, rfl⟩ := List.mem_map.1 hc'
    rw [prepCol_name]
    exact pyStrip_idem c.name
  · intro i c hi hdes
    constructor
    · intro hne
      obtain ⟨m, hm⟩ : ∃ m, median? (presentVals (c.cells.map toNumeric)) =
          some m := by
        cases hmed : median? (presentVals (c.cells.map toNumeric)) with
        | none => exact absurd ((median?_eq_none_iff _).1 hmed) hne
        | some m => exact ⟨m, rfl⟩
      refine ⟨prepCol c, ?_, ?_, ?_⟩
      · rw [List.getElem?_map, hi, Option.map_some']
      · rw [prepCol_name]
      · rw [prepCol_designated hdes hm]
        exact na_not_mem_map_fillWith m (c.cells.map toNumeric)
    · intro hnil
      have hmed : median? (presentVals (c.cells.map toNumeric)) = none :=
        (median?_eq_none_iff _).2 hnil
      constructor
      · rw [List.getElem?_map, hi, Option.map_some',
          prepCol_designated_empty hdes hmed]
      · exact eq_na_of_presentVals_nil _ (isNumericCol_map_toNumeric c.cells)
          hnil

/-- C3 (amended): when some designated column is absent (after name
stripping), `preprocessing` raises a KeyError instead of returning a
dataset. -/
theorem preprocessing_missing_column (df : DataFrame)
    (h : ∃ n ∈ designatedCols, hasColumn (df.map stripCol) n = false) :
    preprocessing df = none := by
  unfold preprocessing
  simp only
  rw [if_neg]
  intro hall
  rw [List.all_eq_true] at hall
  obtain ⟨n, hn, hf⟩ := h
  rw [hall n hn] at hf
  exact Bool.noConfusion hf

/-- C4 (amended): a non-designated column passes through preprocessing
with only its name stripped, provided it is not of numeric dtype or has
no missing value; a numeric non-designated column with missing values is
median-filled as well. -/
theorem preprocessing_frame (df d : DataFrame) (i : ℕ) (c : Col)
    (h : preprocessing df = some d) (hi : df[i]? = some c)
    (hdes : pyStrip c.name ∉ designatedCols)
    (hkeep : isNumericCol c.cells = false ∨ Value.na ∉ c.cells) :
    d[i]? = some ⟨pyStrip c.name, c.cells⟩ := by
  obtain ⟨-, hd⟩ := (preprocessing_eq_some_iff df d).1 h
  subst hd
  rw [List.getElem?_map, hi, Option.map_some']
  cases hkeep with
  | inl hnum => rw [prepCol_nondesignated_notnum hdes hnum]
  | inr hna => rw [prepCol_nondesignated_no_na hdes hna]

/-- C6: in a designated column, every cell that parses numerically keeps
its parsed value and every cell that fails to parse (or was missing)
becomes the median of the successfully parsed values. -/
theorem preprocessing_designated_column (df d : DataFrame) (i : ℕ)
    (c : Col) (m : ℚ)
    (h : preprocessing df = some d) (hi : df[i]? = some c)
    (hdes : pyStrip c.name ∈ designatedCols)
    (hm : median? (presentVals (c.cells.map toNumeric)) = some m) :
    d[i]? = some ⟨pyStrip c.name,
      c.cells.map (fun v => Value.num ((cellNum? (toNumeric v)).getD m))⟩ := by
  obtain ⟨-, hd⟩ := (preprocessing_eq_some_iff df d).1 h
  subst hd
  rw [List.getElem?_map, hi, Option.map_some']
  rw [prepCol_designated hdes hm]
  simp only [Option.some.injEq, Col.mk.injEq, true_and, List.map_map]
  have hpt : ∀ cs : List Value, cs.map (fillWith m ∘ toNumeric) =
      cs.map (fun v => Value.num ((cellNum? (toNumeric v)).getD m)) := by
    intro cs
    induction cs with
    | nil => rfl
    | cons v t ih =>
        simp only [List.map_cons]
        rw [ih]
        exact congrArg (· :: _) (fillWith_toNumeric m v)
  exact hpt c.cells

/-! ### Permutation invariance of the statistical moments -/

theorem map_getD_range {α : Type*} (l : List α) (d : α) :
    (List.range l.length).map (fun i => l.getD i d) = l := by
  apply List.ext_getElem
  · simp
  · intro i h1 h2
    rw [List.getElem_map, List.getElem_range, List.getD_eq_getElem l d h2]

theorem perm_map_getD {α : Type*} {p : List ℕ} {n : ℕ}
    (hp : p.Perm (List.range n)) {l : List α} (hl : l.length = n) (d : α) :
    (p.map (fun i => l.getD i d)).Perm l := by
  subst hl
  have h := hp.map (fun i => l.getD i d)
  rwa [map_getD_range] at h

theorem all_of_perm {α : Type*} {l₁ l₂ : List α} (h : l₁.Perm l₂)
    (f : α → Bool) : l₁.all f = l₂.all f := by
  rw [Bool.eq_iff_iff]
  simp only [List.all_eq_true]
  constructor
  · intro ha x hx
    exact ha x (h.mem_iff.2 hx)
  · intro ha x hx
    exact ha x (h.mem_iff.1 hx)

theorem any_of_perm {α : Type*} {l₁ l₂ : List α} (h : l₁.Perm l₂)
    (f : α → Bool) : l₁.any f = l₂.any f := by
  rw [Bool.eq_iff_iff]
  simp only [List.any_eq_true]
  constructor
  · rintro ⟨x, hx, hf⟩
    exact ⟨x, h.mem_iff.1 hx, hf⟩
  · rintro ⟨x, hx, hf⟩
    exact ⟨x, h.mem_iff.2 hx, hf⟩

theorem isNumericCol_perm {l₁ l₂ : List Value} (h : l₁.Perm l₂) :
    isNumericCol l₁ = isNumericCol l₂ := by
  unfold isNumericCol
  exact all_of_perm h _

theorem listMean_perm {xs ys : List ℚ} (h : xs.Perm ys) :
    listMean xs = listMean ys := by
  unfold listMean
  rw [h.sum_eq, h.length_eq]

theorem centralMoment_perm {xs ys : List ℚ} (h : xs.Perm ys) (k : ℕ) :
    centralMoment xs k = centralMoment ys k := by
  unfold centralMoment
  rw [listMean_perm h, (h.map (fun x => (x - listMean ys) ^ k)).sum_eq,
    h.length_eq]

theorem sampleVar_perm {xs ys : List ℚ} (h : xs.Perm ys) :
    sampleVar xs = sampleVar ys := by
  unfold sampleVar
  rw [listMean_perm h, (h.map (fun x => (x - listMean ys) ^ 2)).sum_eq,
    h.length_eq]

theorem stddev_perm {xs ys : List ℚ} (h : xs.Perm ys) :
    stddev xs = stddev ys := by
  unfold stddev
  rw [sampleVar_perm h]

theorem skew_perm {xs ys : List ℚ} (h : xs.Perm ys) : skew xs = skew ys := by
  unfold skew
  rw [centralMoment_perm h 2, centralMoment_perm h 3]

theorem kurtosis_perm {xs ys : List ℚ} (h : xs.Perm ys) :
    kurtosis xs = kurtosis ys := by
  unfold kurtosis
  rw [centralMoment_perm h 2, centralMoment_perm h 4]

/-- C10: `statistical_analysis` returns the same four moments on any
simultaneous permutation of the dataset's rows: every moment is built
from row sums and counts, which are order-independent. -/
theorem statistical_analysis_perm (df : DataFrame) (col : String) (n : ℕ)
    (p : List ℕ) (hlen : ∀ c ∈ df, c.cells.length = n)
    (hp : p.Perm (List.range n)) :
    statistical_analysis (permRows p df) col = statistical_analysis df col := by
  unfold statistical_analysis getColumn permRows
  rw [List.find?_map]
  have hcomp : ((fun c : Col => decide (c.name = col)) ∘ fun c : Col =>
      { c with cells := p.map (fun i => c.cells.getD i Value.na) }) =
      fun c : Col => decide (c.name = col) := rfl
  rw [hcomp]
  cases hfind : df.find? (fun c : Col => decide (c.name = col)) with
  | none => rfl
  | some c =>
      simp only [Option.map_some', Option.some_bind]
      have hin : c ∈ df := List.mem_of_find?_eq_some hfind
      have hperm : (p.map (fun i => c.cells.getD i Value.na)).Perm c.cells :=
        perm_map_getD hp (hlen c hin) _
      have hpv : (presentVals (p.map fun i => c.cells.getD i Value.na)).Perm
          (presentVals c.cells) := hperm.filterMap cellNum?
      rw [isNumericCol_perm hperm, any_of_perm hperm isNaCell,
        listMean_perm hpv, stddev_perm hpv, skew_perm hpv, kurtosis_perm hpv]

/-! ### Reference statistics over the reals, following the
specification's wording, for comparison with the modelled library
functions -/

/-- Reference arithmetic mean, written directly over the reals. -/
noncomputable def specMean (xs : List ℚ) : ℝ :=
  (xs.map (fun q : ℚ => (q : ℝ))).sum / xs.length

/-- Reference sum of squared deviations from the mean. -/
noncomputable def specSqDevSum (xs : List ℚ) : ℝ :=
  (xs.map (fun x : ℚ => ((x : ℝ) - specMean xs) ^ 2)).sum

/-- Reference population variance (divisor `n`). -/
noncomputable def specPopVar (xs : List ℚ) : ℝ :=
  specSqDevSum xs / xs.length

/-- Reference fourth standardized moment: the mean of the fourth powers
of the deviations standardized by the population standard deviation. -/
noncomputable def specStdMoment4 (xs : List ℚ) : ℝ :=
  (xs.map (fun x : ℚ =>
    (((x : ℝ) - specMean xs) / Real.sqrt (specPopVar xs)) ^ 4)).sum /
      xs.length

theorem map_ext_fun {α β : Type*} (f g : α → β) (l : List α)
    (h : ∀ x, f x = g x) : l.map f = l.map g := by
  induction l with
  | nil => rfl
  | cons a t ih => simp [h a, ih]

theorem ratCast_list_sum (xs : List ℚ) :
    ((xs.sum : ℚ) : ℝ) = (xs.map (fun q : ℚ => (q : ℝ))).sum := by
  induction xs with
  | nil => simp
  | cons a t ih => simp [ih]

theorem listMean_cast (xs : List ℚ) :
    ((listMean xs : ℚ) : ℝ) = specMean xs := by
  unfold listMean specMean
  rw [Rat.cast_div, ratCast_list_sum, Rat.cast_natCast]

theorem devPowSum_cast (xs : List ℚ) (k : ℕ) :
    (((xs.map (fun x => (x - listMean xs) ^ k)).sum : ℚ) : ℝ) =
      (xs.map (fun x : ℚ => ((x : ℝ) - specMean xs) ^ k)).sum := by
  rw [ratCast_list_sum, List.map_map]
  apply congrArg
  apply map_ext_fun
  intro x
  simp only [Function.comp_apply]
  push_cast
  rw [listMean_cast]

theorem centralMoment_cast (xs : List ℚ) (k : ℕ) :
    ((centralMoment xs k : ℚ) : ℝ) =
      (xs.map (fun x : ℚ => ((x : ℝ) - specMean xs) ^ k)).sum / (xs.length : ℝ) := by
  unfold centralMoment
  rw [Rat.cast_div, devPowSum_cast, Rat.cast_natCast]

theorem sampleVar_cast (xs : List ℚ) :
    ((sampleVar xs : ℚ) : ℝ) = specSqDevSum xs / ((xs.length : ℝ) - 1) := by
  unfold sampleVar specSqDevSum
  rw [Rat.cast_div, devPowSum_cast]
  push_cast
  rfl

theorem specSqDevSum_nonneg (xs : List ℚ) : 0 ≤ specSqDevSum xs := by
  apply List.sum_nonneg
  intro x hx
  obtain ⟨a, -, rfl⟩ := List.mem_map.1 hx
  exact sq_nonneg _

theorem specPopVar_eq_centralMoment (xs : List ℚ) :
    specPopVar xs = ((centralMoment xs 2 : ℚ) : ℝ) := by
  rw [centralMoment_cast]
  rfl

/-- C8: the standard deviation returned by `statistical_analysis` is the
sample standard deviation with divisor `n - 1` (its square is the sum of
squared deviations over `n - 1`), and the returned excess kurtosis is
the fourth standardized moment minus 3. -/
theorem statistical_conventions (xs : List ℚ) (hn : 2 ≤ xs.length)
    (hm2 : centralMoment xs 2 ≠ 0) :
    stddev xs ^ 2 = specSqDevSum xs / ((xs.length : ℝ) - 1) ∧
      0 ≤ stddev xs ∧
      ((kurtosis xs).getD 0 : ℝ) = specStdMoment4 xs - 3 := by
  have hlen1 : (1 : ℝ) < (xs.length : ℝ) := by
    have h : 1 < xs.length := by omega
    exact_mod_cast h
  have hlen0 : (0 : ℝ) < (xs.length : ℝ) := by linarith
  have hvar_cast : ((sampleVar xs : ℚ) : ℝ) =
      specSqDevSum xs / ((xs.length : ℝ) - 1) := sampleVar_cast xs
  have hvar_nonneg : (0 : ℝ) ≤ ((sampleVar xs : ℚ) : ℝ) := by
    rw [hvar_cast]
    apply div_nonneg (specSqDevSum_nonneg xs)
    linarith
  refine ⟨?_, Real.sqrt_nonneg _, ?_⟩
  · unfold stddev
    rw [Real.sq_sqrt hvar_nonneg, hvar_cast]
  · unfold kurtosis
    rw [if_neg hm2]
    simp only [Option.getD_some]
    push_cast
    have hm2R : ((centralMoment xs 2 : ℚ) : ℝ) ≠ 0 := by exact_mod_cast hm2
    have hpv_nonneg : 0 ≤ specPopVar xs :=
      div_nonneg (specSqDevSum_nonneg xs) (le_of_lt hlen0)
    have hsq : Real.sqrt (specPopVar xs) ^ 4 =
        ((centralMoment xs 2 : ℚ) : ℝ) ^ 2 := by
      have h4 : Real.sqrt (specPopVar xs) ^ 4 =
          (Real.sqrt (specPopVar xs) ^ 2) ^ 2 := by ring
      rw [h4, Real.sq_sqrt hpv_nonneg, specPopVar_eq_centralMoment]
    have hmap : xs.map (fun x : ℚ =>
        (((x : ℝ) - specMean xs) / Real.sqrt (specPopVar xs)) ^ 4) =
        xs.map (fun x : ℚ => ((x : ℝ) - specMean xs) ^ 4 *
          (((centralMoment xs 2 : ℚ) : ℝ) ^ 2)⁻¹) := by
      apply map_ext_fun
      intro x
      rw [div_pow, hsq, div_eq_mul_inv]
    unfold specStdMoment4
    rw [hmap, List.sum_map_mul_right, centralMoment_cast]
    have hne : (xs.length : ℝ) ≠ 0 := ne_of_gt hlen0
    field_simp
    ring

/-! ### The reporter's classification -/

/-- C7: the reporter classifies skewness with strict thresholds at 2 and
-2 (both endpoints fall in the "not skewed" default) and excess kurtosis
with strict thresholds at 0 (exactly 0 is "mesokurtic"). -/
theorem writing_classification (s k : ℚ) :
    (2 < s → skewness_interpretation s = "right-skewed") ∧
      (s < -2 → skewness_interpretation s = "left-skewed") ∧
      (-2 ≤ s → s ≤ 2 → skewness_interpretation s = "not skewed") ∧
      (0 < k → kurtosis_interpretation k = "leptokurtic (heavy-tailed)") ∧
      (k < 0 → kurtosis_interpretation k = "platykurtic (light-tailed)") ∧
      (k = 0 → kurtosis_interpretation k = "mesokurtic") := by
  unfold skewness_interpretation kurtosis_interpretation
  refine ⟨fun h => ?_, fun h => ?_, fun h1 h2 => ?_, fun h => ?_,
    fun h => ?_, fun h => ?_⟩
  · rw [if_pos h]
  · rw [if_neg (by linarith), if_pos h]
  · rw [if_neg (by linarith), if_neg (by linarith)]
  · rw [if_pos h]
  · rw [if_neg (by linarith), if_pos h]
  · subst h
    rw [if_neg (by norm_num), if_neg (by norm_num)]

/-- Witness for the reporter classification at the specification's test
values 2.5, 0.1 and -0.3, and at the threshold values themselves. -/
theorem writing_classification_witness :
    skewness_interpretation (5 / 2) = "right-skewed" ∧
      skewness_interpretation (1 / 10) = "not skewed" ∧
      skewness_interpretation 2 = "not skewed" ∧
      skewness_interpretation (-2) = "not skewed" ∧
      kurtosis_interpretation (-3 / 10) = "platykurtic (light-tailed)" ∧
      kurtosis_interpretation 0 = "mesokurtic" :=
  ⟨(writing_classification (5 / 2) 0).1 (by norm_num),
    (writing_classification (1 / 10) 0).2.2.1 (by norm_num) (by norm_num),
    (writing_classification 2 0).2.2.1 (by norm_num) (by norm_num),
    (writing_classification (-2) 0).2.2.1 (by norm_num) (by norm_num),
    (writing_classification 0 (-3 / 10)).2.2.2.2.1 (by norm_num),
    (writing_classification 0 0).2.2.2.2.2 rfl⟩

/-! ### Concrete datasets used as test vectors -/

/-- A dataset whose designated column `summer_gold` holds no numerically
parseable cell at all. -/
def dfAllNa : DataFrame :=
  [⟨"summer_gold", [.str "abc"]⟩, ⟨"summer_total", [.num 1]⟩,
   ⟨"total_gold", [.num 1]⟩, ⟨"total_total", [.num 1]⟩]

/-- What preprocessing returns on `dfAllNa`: the unparseable designated
column stays entirely missing. -/
def dfAllNaOut : DataFrame :=
  [⟨"summer_gold", [.na]⟩, ⟨"summer_total", [.num 1]⟩,
   ⟨"total_gold", [.num 1]⟩, ⟨"total_total", [.num 1]⟩]

/-- The specification's raw-column example inside a full dataset, plus a
textual passthrough column whose name carries whitespace. -/
def df6 : DataFrame :=
  [⟨"summer_gold", [.str "10", .str "abc", .str "20", .str ""]⟩,
   ⟨"summer_total", [.num 1]⟩, ⟨"total_gold", [.num 1]⟩,
   ⟨"total_total", [.num 1]⟩, ⟨" countries ", [.str "usa", .str "uk"]⟩]

/-- What preprocessing returns on `df6`. -/
def df6out : DataFrame :=
  [⟨"summer_gold", [.num 10, .num 15, .num 20, .num 15]⟩,
   ⟨"summer_total", [.num 1]⟩, ⟨"total_gold", [.num 1]⟩,
   ⟨"total_total", [.num 1]⟩, ⟨"countries", [.str "usa", .str "uk"]⟩]

/-- A dataset with a numeric, non-designated column containing a missing
value. -/
def dfFrame : DataFrame :=
  [⟨"summer_gold", [.num 1]⟩, ⟨"summer_total", [.num 1]⟩,
   ⟨"total_gold", [.num 1]⟩, ⟨"total_total", [.num 1]⟩,
   ⟨"other", [.num 1, .na, .num 3]⟩]

/-- What preprocessing returns on `dfFrame`: the non-designated numeric
column is median-filled too. -/
def dfFrameOut : DataFrame :=
  [⟨"summer_gold", [.num 1]⟩, ⟨"summer_total", [.num 1]⟩,
   ⟨"total_gold", [.num 1]⟩, ⟨"total_total", [.num 1]⟩,
   ⟨"other", [.num 1, .num 2, .num 3]⟩]

/-- A dataset lacking every designated column. -/
def dfNoCol : DataFrame := [⟨"countries", [.str "usa"]⟩]

/-- A cleaned dataset whose analysis column is constant. -/
def dfConst : DataFrame :=
  [⟨"total_gold", [.num 5, .num 5, .num 5, .num 5]⟩]

/-- A cleaned two-row dataset for the permutation test. -/
def dfPerm : DataFrame := [⟨"total_gold", [.num 1, .num 3]⟩]

theorem median_df6_col :
    median? (presentVals ([Value.str "10", Value.str "abc", Value.str "20",
      Value.str ""].map toNumeric)) = some 15 := by
  have hcells : [Value.str "10", Value.str "abc", Value.str "20",
      Value.str ""].map toNumeric =
      [Value.num 10, Value.na, Value.num 20, Value.na] := by decide
  rw [hcells]
  have hpres : presentVals [Value.num 10, Value.na, Value.num 20, Value.na] =
      [10, 20] := by decide
  rw [hpres]
  norm_num [median?, List.insertionSort, List.orderedInsert]

theorem prep_df6 : preprocessing df6 = some df6out := by
  have h1 : prepCol ⟨"summer_gold", [.str "10", .str "abc", .str "20",
      .str ""]⟩ = ⟨"summer_gold", [.num 10, .num 15, .num 20, .num 15]⟩ := by
    rw [prepCol_designated (by decide) median_df6_col]
    decide
  have h2 : prepCol ⟨"summer_total", [Value.num 1]⟩ =
      ⟨"summer_total", [Value.num 1]⟩ := by decide
  have h3 : prepCol ⟨"total_gold", [Value.num 1]⟩ =
      ⟨"total_gold", [Value.num 1]⟩ := by decide
  have h4 : prepCol ⟨"total_total", [Value.num 1]⟩ =
      ⟨"total_total", [Value.num 1]⟩ := by decide
  have h5 : prepCol ⟨" countries ", [.str "usa", .str "uk"]⟩ =
      ⟨"countries", [.str "usa", .str "uk"]⟩ := by decide
  apply (preprocessing_eq_some_iff _ _).2
  refine ⟨by decide, ?_⟩
  show df6out = df6.map prepCol
  simp only [df6, List.map_cons, List.map_nil, h1, h2, h3, h4, h5, df6out]

theorem prep_dfFrame : preprocessing dfFrame = some dfFrameOut := by
  have h1 : prepCol ⟨"summer_gold", [Value.num 1]⟩ =
      ⟨"summer_gold", [Value.num 1]⟩ := by decide
  have h2 : prepCol ⟨"summer_total", [Value.num 1]⟩ =
      ⟨"summer_total", [Value.num 1]⟩ := by decide
  have h3 : prepCol ⟨"total_gold", [Value.num 1]⟩ =
      ⟨"total_gold", [Value.num 1]⟩ := by decide
  have h4 : prepCol ⟨"total_total", [Value.num 1]⟩ =
      ⟨"total_total", [Value.num 1]⟩ := by decide
  have h5 : prepCol ⟨"other", [.num 1, .na, .num 3]⟩ =
      ⟨"other", [.num 1, .num 2, .num 3]⟩ := by
    unfold prepCol
    rw [coerceCol_stripCol_nondesignated (by decide)]
    unfold fillCol
    simp only
    rw [if_pos (by decide)]
    have hmed : median? (presentVals [Value.num 1, Value.na, Value.num 3]) =
        some 2 := by
      have hpres : presentVals [Value.num 1, Value.na, Value.num 3] =
          [1, 3] := by decide
      rw [hpres]
      norm_num [median?, List.insertionSort, List.orderedInsert]
    rw [hmed]
    decide
  apply (preprocessing_eq_some_iff _ _).2
  refine ⟨by decide, ?_⟩
  show dfFrameOut = dfFrame.map prepCol
  simp only [dfFrame, List.map_cons, List.map_nil, h1, h2, h3, h4, h5,
    dfFrameOut]

/-! ### Evaluation theorems, counterexamples and witnesses -/

/-- C2: on the all-equal column `[5,5,5,5]` the analyzer returns mean 5
and standard deviation 0, but the unguarded `scipy` skewness and excess
kurtosis are NaN (`none`), not the defined `0.0` the specification
requires. -/
theorem statistical_analysis_const_column :
    statistical_analysis dfConst "total_gold" = some (5, 0, none, none) := by
  have hfind : getColumn dfConst "total_gold" = some ⟨"total_gold",
      [Value.num 5, Value.num 5, Value.num 5, Value.num 5]⟩ := by decide
  unfold statistical_analysis
  rw [hfind]
  simp only [Option.some_bind]
  rw [if_pos (show isNumericCol [Value.num 5, Value.num 5, Value.num 5,
    Value.num 5] = true by decide)]
  have hna : ([Value.num 5, Value.num 5, Value.num 5,
      Value.num 5].any isNaCell) = false := by decide
  rw [hna]
  have hpres : presentVals [Value.num 5, Value.num 5, Value.num 5,
      Value.num 5] = [5, 5, 5, 5] := by decide
  rw [hpres]
  have hmean : listMean [(5 : ℚ), 5, 5, 5] = 5 := by norm_num [listMean]
  have hm2 : centralMoment [(5 : ℚ), 5, 5, 5] 2 = 0 := by
    norm_num [centralMoment, listMean]
  have hvar : sampleVar [(5 : ℚ), 5, 5, 5] = 0 := by
    norm_num [sampleVar, listMean]
  have hstd : stddev [(5 : ℚ), 5, 5, 5] = 0 := by
    unfold stddev
    rw [hvar]
    simp
  have hskew : skew [(5 : ℚ), 5, 5, 5] = none := by
    unfold skew
    rw [if_pos hm2]
  have hkurt : kurtosis [(5 : ℚ), 5, 5, 5] = none := by
    unfold kurtosis
    rw [if_pos hm2]
  rw [hmean, hstd, hskew, hkurt]
  simp

/-- C9: a designated column with no parseable numeric value produces no
error: preprocessing completes and returns the column entirely missing,
so the missing values reach downstream consumers. -/
theorem preprocessing_unparseable_column :
    preprocessing dfAllNa = some dfAllNaOut ∧
      getColumn dfAllNaOut "summer_gold" = some ⟨"summer_gold", [Value.na]⟩ ∧
      median? (presentVals ([Value.str "abc"].map toNumeric)) = none := by
  decide

/-- C1 counterexample: preprocessing returns `dfAllNaOut`, whose
designated column `summer_gold` still contains a missing value. -/
theorem preprocessing_clean_counterexample :
    preprocessing dfAllNa = some dfAllNaOut ∧
      ¬ (∀ c ∈ dfAllNaOut, c.name ∈ designatedCols → Value.na ∉ c.cells) := by
  decide

/-- Witness for C1 (amended) on `dfAllNa`, whose `summer_gold` column
has no parseable cell while the other designated columns do: the former
is returned entirely missing, the latter with no missing value. -/
theorem preprocessing_clean_witness :
    preprocessing dfAllNa = some dfAllNaOut ∧
      ((∀ c ∈ dfAllNaOut, pyStrip c.name = c.name) ∧
        (∀ i : ℕ, ∀ c : Col, dfAllNa[i]? = some c →
          pyStrip c.name ∈ designatedCols →
          ((presentVals (c.cells.map toNumeric) ≠ [] →
              ∃ c', dfAllNaOut[i]? = some c' ∧ c'.name = pyStrip c.name ∧
                Value.na ∉ c'.cells) ∧
            (presentVals (c.cells.map toNumeric) = [] →
              dfAllNaOut[i]? = some ⟨pyStrip c.name, c.cells.map toNumeric⟩ ∧
                ∀ v ∈ c.cells.map toNumeric, v = Value.na)))) :=
  ⟨by decide, preprocessing_clean dfAllNa dfAllNaOut (by decide)⟩

/-- C3 counterexample: a dataset lacking `summer_gold` makes
preprocessing raise (return no dataset) instead of completing. -/
theorem preprocessing_missing_column_cex :
    hasColumn (dfNoCol.map stripCol) "summer_gold" = false ∧
      preprocessing dfNoCol = none := by
  decide

/-- Witness for C3 (amended) on `dfNoCol`. -/
theorem preprocessing_missing_column_witness :
    (∃ n ∈ designatedCols, hasColumn (dfNoCol.map stripCol) n = false) ∧
      preprocessing dfNoCol = none :=
  ⟨by decide, preprocessing_missing_column dfNoCol (by decide)⟩

/-- C4 counterexample: the non-designated numeric column `other` of
`dfFrame` does not pass through unchanged: its missing value is
median-filled. -/
theorem preprocessing_frame_counterexample :
    preprocessing dfFrame = some dfFrameOut ∧
      dfFrame[4]? = some ⟨"other", [Value.num 1, Value.na, Value.num 3]⟩ ∧
      dfFrameOut[4]? ≠ some ⟨pyStrip "other",
        [Value.num 1, Value.na, Value.num 3]⟩ :=
  ⟨prep_dfFrame, by decide, by decide⟩

/-- Witness for C4 (amended): the textual column of `df6` passes through
with only its name stripped. -/
theorem preprocessing_frame_witness :
    df6[4]? = some ⟨" countries ", [Value.str "usa", Value.str "uk"]⟩ ∧
      df6out[4]? = some ⟨"countries", [Value.str "usa", Value.str "uk"]⟩ := by
  refine ⟨by decide, ?_⟩
  have h := preprocessing_frame df6 df6out 4
    ⟨" countries ", [Value.str "usa", Value.str "uk"]⟩ prep_df6 (by decide)
    (by decide) (Or.inl (by decide))
  rw [h]
  decide

/-- Witness for C5 on the dataset `df6`. -/
theorem preprocessing_idempotent_witness :
    preprocessing df6 = some df6out ∧ preprocessing df6out = some df6out :=
  ⟨prep_df6, preprocessing_idempotent df6 df6out prep_df6⟩

/-- Witness for C6 on the specification's example column
`["10", "abc", "20", ""]`: it becomes `[10, 15, 20, 15]`. -/
theorem preprocessing_designated_column_witness :
    median? (presentVals ([Value.str "10", Value.str "abc", Value.str "20",
      Value.str ""].map toNumeric)) = some 15 ∧
      df6out[0]? = some ⟨"summer_gold",
        [Value.num 10, Value.num 15, Value.num 20, Value.num 15]⟩ := by
  refine ⟨median_df6_col, ?_⟩
  have h := preprocessing_designated_column df6 df6out 0
    ⟨"summer_gold", [Value.str "10", Value.str "abc", Value.str "20",
      Value.str ""]⟩ 15 prep_df6 (by decide) (by decide) median_df6_col
  rw [h]
  decide

/-- Witness for C8 on the column `[1, 3]`. -/
theorem statistical_conventions_witness :
    2 ≤ ([(1 : ℚ), 3]).length ∧ centralMoment [(1 : ℚ), 3] 2 ≠ 0 ∧
      (stddev [(1 : ℚ), 3] ^ 2 =
          specSqDevSum [(1 : ℚ), 3] / ((([(1 : ℚ), 3]).length : ℝ) - 1) ∧
        0 ≤ stddev [(1 : ℚ), 3] ∧
        ((kurtosis [(1 : ℚ), 3]).getD 0 : ℝ) =
          specStdMoment4 [(1 : ℚ), 3] - 3) :=
  ⟨by decide, by norm_num [centralMoment, listMean],
    statistical_conventions [(1 : ℚ), 3] (by decide)
      (by norm_num [centralMoment, listMean])⟩

/-- Witness for C10: swapping the two rows of `dfPerm` leaves the
analysis unchanged. -/
theorem statistical_analysis_perm_witness :
    (∀ c ∈ dfPerm, c.cells.length = 2) ∧
      ([1, 0] : List ℕ).Perm (List.range 2) ∧
      statistical_analysis (permRows [1, 0] dfPerm) "total_gold" =
        statistical_analysis dfPerm "total_gold" :=
  ⟨by decide, by decide,
    statistical_analysis_perm dfPerm "total_gold" 2 [1, 0] (by decide)
      (by decide)⟩

end StatTrends
